import Mathlib

/-!
Shallow embedding of the `marketplace-v2` contract (`src/execute.rs`).

Addresses, token ids and denoms are strings; `Uint128` amounts and
`Timestamp`s are natural numbers; `Decimal` values are naturals counting
atomic units with 18 fractional digits, as in the host library.  Registry
storage maps become association lists.  A contract call is a pure function
from a state to `Except ContractError (State × Response)`; the `Response`
collects the token-custody transfers and value transfers the host executes
atomically with the call, together with the emitted events.

Helper modules of the repository (`helpers.rs`, `state.rs`, `query.rs`) are
not part of the given source tree; every definition whose doc comment starts
with "Modelled from the spec:" stands for such a missing helper and follows
the specification's words for it.  Everything else is translated directly
from `execute.rs`.
-/

namespace Marketplace

abbrev Addr := String

abbrev TokenId := String

/-- A `cosmwasm_std::Coin`: a denomination together with an amount. -/
structure Coin where
  denom : String
  amount : Nat
  deriving DecidableEq

/-- An expiry range `{min, max}` from `helpers.rs`. -/
structure ExpiryRange where
  min : Nat
  max : Nat
  deriving DecidableEq

/-- The marketplace parameters singleton (`state.rs::Params`).
`trading_fee_percent_atomics` is the stored `Decimal` in atomic units
(value × 10^18), as produced by `Decimal::percent`. -/
structure Params where
  cw721_address : Addr
  denom : String
  collector_address : Addr
  trading_fee_percent_atomics : Nat
  ask_expiry : ExpiryRange
  bid_expiry : ExpiryRange
  auction_expiry : ExpiryRange
  operators : List Addr
  min_price : Nat
  deriving DecidableEq

/-- An ask record (`state.rs::Ask`). -/
structure Ask where
  token_id : TokenId
  seller : Addr
  price : Coin
  funds_recipient : Option Addr
  reserve_for : Option Addr
  expires_at : Nat
  deriving DecidableEq

/-- A bid record (`state.rs::Bid`). -/
structure Bid where
  token_id : TokenId
  bidder : Addr
  price : Coin
  expires_at : Nat
  deriving DecidableEq

/-- A collection bid record (`state.rs::CollectionBid`); `price` is the
per-unit price, so the escrowed total is `units * price.amount`. -/
structure CollectionBid where
  units : Nat
  price : Coin
  bidder : Addr
  expires_at : Nat
  deriving DecidableEq

/-- An auction record (`state.rs::Auction`). -/
structure Auction where
  token_id : TokenId
  seller : Addr
  starting_price : Coin
  reserve_price : Option Coin
  funds_recipient : Option Addr
  expires_at : Nat
  deriving DecidableEq

/-- Modelled from the spec: the ask's funds recipient defaults to the seller. -/
def Ask.get_recipient (a : Ask) : Addr :=
  a.funds_recipient.getD a.seller

/-- Modelled from the spec: the auction's funds recipient defaults to the seller. -/
def Auction.get_recipient (a : Auction) : Addr :=
  a.funds_recipient.getD a.seller

/-- Modelled from the spec: a bid is expired once the block time has reached
its expiry. -/
def Bid.is_expired (b : Bid) (now : Nat) : Bool :=
  decide (b.expires_at ≤ now)

/-- Modelled from the spec: a collection bid is expired once the block time
has reached its expiry. -/
def CollectionBid.is_expired (cb : CollectionBid) (now : Nat) : Bool :=
  decide (cb.expires_at ≤ now)

/-- Modelled from the spec: an auction is expired once the block time has
reached its expiry. -/
def Auction.is_expired (a : Auction) (now : Nat) : Bool :=
  decide (a.expires_at ≤ now)

/-- Modelled from the spec: the total escrow cost of a collection bid,
`price × units`. -/
def CollectionBid.total_cost (cb : CollectionBid) : Nat :=
  cb.price.amount * cb.units

/-- Block metadata visible to a call. -/
structure BlockInfo where
  time : Nat
  deriving DecidableEq

/-- Call environment (`cosmwasm_std::Env`). -/
structure Env where
  block : BlockInfo
  contract_address : Addr
  deriving DecidableEq

/-- Sender and attached funds of a call (`cosmwasm_std::MessageInfo`). -/
structure MessageInfo where
  sender : Addr
  funds : List Coin
  deriving DecidableEq

/-- A transfer the host performs atomically with the call: either a
token-custody transfer of an NFT or a bank send of funds.  The string on a
send is the event label the contract attaches to it. -/
inductive Action where
  | transferNft (token_id : TokenId) (recipient : Addr)
  | send (recipient : Addr) (funds : Coin) (label : String)
  deriving DecidableEq

/-- An emitted event: a type tag and attribute key/value pairs. -/
structure Event where
  ty : String
  attrs : List (String × String)
  deriving DecidableEq

/-- The response of a successful call: queued transfers plus events. -/
structure Response where
  messages : List Action
  events : List Event
  deriving DecidableEq

def Response.new : Response := ⟨[], []⟩

def Response.add_event (r : Response) (e : Event) : Response :=
  ⟨r.messages, r.events ++ [e]⟩

/-- The error taxonomy of `error.rs`, restricted to the variants the
handlers here can raise. -/
inductive ContractError where
  | NotFound
  | Unauthorized
  | PaymentError
  | InvalidPrice
  | InvalidExpiry
  | IncorrectBidPayment (expected actual : Nat)
  | BidExpired
  | AuctionExpired
  | AuctionAlreadyExists (token_id : TokenId)
  | InvalidReservePrice (reserve starting : Nat)
  | ReservePriceRestriction (reason : String)
  deriving DecidableEq

deriving instance DecidableEq for Except

/-- Contract storage: the parameters singleton and the four registries,
as association lists keyed the way `state.rs` keys them. -/
structure State where
  params : Params
  asks : List (TokenId × Ask)
  bids : List ((TokenId × Addr) × Bid)
  collection_bids : List (Addr × CollectionBid)
  auctions : List (TokenId × Auction)
  deriving DecidableEq

/-- Association-list lookup (storage `load`/`may_load`). -/
def lookupA {κ α : Type} [DecidableEq κ] : List (κ × α) → κ → Option α
  | [], _ => none
  | (k1, v) :: t, k => if k = k1 then some v else lookupA t k

/-- Association-list removal of every entry at a key (storage `remove`). -/
def removeA {κ α : Type} [DecidableEq κ] : List (κ × α) → κ → List (κ × α)
  | [], _ => []
  | (k1, v) :: t, k => if k = k1 then removeA t k else (k1, v) :: removeA t k

/-- Association-list upsert (storage `save`/`update`). -/
def insertA {κ α : Type} [DecidableEq κ] (l : List (κ × α)) (k : κ) (v : α) :
    List (κ × α) :=
  (k, v) :: removeA l k

/-- How many entries an association list holds at a key. -/
def countKey {κ α : Type} [DecidableEq κ] (l : List (κ × α)) (k : κ) : Nat :=
  (l.filter (fun kv => decide (kv.1 = k))).length

/-- A failed storage `load` on a missing record. -/
def loadE {α : Type} : Option α → Except ContractError α
  | some a => .ok a
  | none => .error ContractError.NotFound

/-- Early return: fail the call when the condition holds, as `if cond \x7b return Err(e) \x7d` does in the handlers. -/
def failIf (c : Prop) [Decidable c] (e : ContractError) :
    Except ContractError Unit :=
  if c then .error e else .ok ()

/-- Modelled from the spec: the host-library payment helper `must_pay`;
it succeeds exactly when one single coin of the given denom with a positive
amount is attached, returning that amount. -/
def must_pay (info : MessageInfo) (denom : String) : Except ContractError Nat :=
  match info.funds with
  | [c] => if c.denom = denom ∧ 0 < c.amount then .ok c.amount else .error .PaymentError
  | _ => .error .PaymentError

/-- Modelled from the spec: the host-library guard `nonpayable`; it fails
when any funds are attached. -/
def nonpayable (info : MessageInfo) : Except ContractError Unit :=
  failIf (info.funds ≠ []) ContractError.PaymentError

/-- Modelled from the spec: `priceValidate` fails unless the currency
matches, the amount is at least the price floor, and the amount is
positive. -/
def price_validate (price : Coin) (params : Params) : Except ContractError Unit :=
  failIf (¬ (price.denom = params.denom ∧ params.min_price ≤ price.amount ∧ 0 < price.amount))
    ContractError.InvalidPrice

/-- Modelled from the spec: `ExpiryRange.isValid(now, proposed)` fails
unless `min ≤ proposed − now ≤ max` (in particular the proposed expiry may
not precede the current block time). -/
def ExpiryRange.is_valid (r : ExpiryRange) (block : BlockInfo) (expires_at : Nat) :
    Except ContractError Unit :=
  failIf (¬ (block.time ≤ expires_at ∧ r.min ≤ expires_at - block.time ∧
      expires_at - block.time ≤ r.max))
    ContractError.InvalidExpiry

/-- Modelled from the spec: the sanity check of an expiry range itself,
requiring a non-inverted interval. -/
def ExpiryRange.validate (r : ExpiryRange) : Except ContractError Unit :=
  failIf (¬ r.min ≤ r.max) ContractError.InvalidExpiry

/-- Modelled from the spec: operator-only authorization. -/
def only_operator (info : MessageInfo) (params : Params) : Except ContractError Unit :=
  failIf (info.sender ∉ params.operators) ContractError.Unauthorized

/-- Modelled from the spec: seller-only authorization — the sender must be
the stored seller (or bidder). -/
def only_seller (info : MessageInfo) (seller : Addr) : Except ContractError Unit :=
  failIf (info.sender ≠ seller) ContractError.Unauthorized

/-- Modelled from the spec: owner-only authorization — the sender must be
the token ledger's current owner; `ownerOf` is the consumed
token-ownership query. -/
def only_owner (ownerOf : TokenId → Addr) (info : MessageInfo) (token_id : TokenId) :
    Except ContractError Unit :=
  failIf (ownerOf token_id ≠ info.sender) ContractError.Unauthorized

/-- Modelled from the spec: owner-or-seller authorization — the sender is
the token's current owner or, when an ask exists, its stored seller. -/
def only_owner_or_seller (ownerOf : TokenId → Addr) (info : MessageInfo)
    (token_id : TokenId) (seller : Option Addr) : Except ContractError Unit :=
  failIf (¬ (ownerOf token_id = info.sender ∨ seller = some info.sender))
    ContractError.Unauthorized

/-- Queue a token-custody transfer of the NFT to a recipient. -/
def transfer_nft (token_id : TokenId) (recipient : Addr) (r : Response) : Response :=
  ⟨r.messages ++ [Action.transferNft token_id recipient], r.events⟩

/-- Queue a bank send of funds to a recipient, tagged with an event label. -/
def transfer_token (c : Coin) (recipient : Addr) (label : String) (r : Response) :
    Response :=
  ⟨r.messages ++ [Action.send recipient c label], r.events⟩

/-- One whole unit of a `Decimal`, in atomic units. -/
def decimalOne : Nat := 10 ^ 18

/-- The host library's `Decimal::percent(v)`, in atomic units. -/
def decimalPercent (v : Nat) : Nat := v * 10 ^ 16

/-- The marketplace fee on a gross amount: `gross × feePercent / 100` with
`Decimal` fixed-point flooring. -/
def feeAmount (gross : Nat) (params : Params) : Nat :=
  gross * params.trading_fee_percent_atomics / decimalOne / 100

/-- Modelled from the spec: `finalizeSale` — pay the fee share of the gross
amount to the collector, the remainder to the recipient, and queue the
token-custody transfer to the buyer, all in the same atomic unit of work. -/
def finalize_sale (buyer : Addr) (token_id : TokenId) (gross : Nat)
    (recipient : Addr) (params : Params) (r : Response) : Response :=
  let fee := feeAmount gross params
  let r := transfer_token ⟨params.denom, fee⟩ params.collector_address "payout-market" r
  let r := transfer_token ⟨params.denom, gross - fee⟩ recipient "payout-seller" r
  transfer_nft token_id buyer r

/-- Modelled from the spec: persist a bid under its `(token id, bidder)` key. -/
def store_bid (s : State) (b : Bid) : State :=
  { s with bids := insertA s.bids (b.token_id, b.bidder) b }

/-- Modelled from the spec: persist a collection bid under its bidder key. -/
def store_collection_bid (s : State) (cb : CollectionBid) : State :=
  { s with collection_bids := insertA s.collection_bids cb.bidder cb }

/-- Modelled from the spec: the matching engine — when an ask exists for the
bid's token it is returned to be consumed unconditionally, with no price
comparison against the ask. -/
def match_bid (s : State) (b : Bid) : Option Ask :=
  lookupA s.asks b.token_id

/-- Modelled from the spec: the price-ordered, expiry-filterable read of the
bids on a token, taken descending with limit 1 — i.e. the highest-priced
bid on the token that has not expired at `now`. -/
def query_highest_live_bid (s : State) (token_id : TokenId) (now : Nat) : Option Bid :=
  (s.bids.filter (fun kv => decide (kv.1.1 = token_id ∧ now < kv.2.expires_at))).foldl
    (fun acc kv =>
      match acc with
      | none => some kv.2
      | some b => if b.price.amount < kv.2.price.amount then some kv.2 else some b)
    none

/-- The instantiate message (`msg.rs::InstantiateMsg`). -/
structure InstantiateMsg where
  cw721_address : Addr
  denom : String
  collector_address : Addr
  trading_fee_bps : Nat
  ask_expiry : ExpiryRange
  bid_expiry : ExpiryRange
  auction_expiry : ExpiryRange
  operators : List Addr
  min_price : Nat
  deriving DecidableEq

/-- Entry point `instantiate`: validate the ask and bid expiry ranges and store the
initial parameters; every registry starts empty. -/
def instantiate (msg : InstantiateMsg) : Except ContractError State := do
  ExpiryRange.validate msg.ask_expiry
  ExpiryRange.validate msg.bid_expiry
  let params : Params := {
    cw721_address := msg.cw721_address
    denom := msg.denom
    collector_address := msg.collector_address
    trading_fee_percent_atomics := decimalPercent msg.trading_fee_bps
    ask_expiry := msg.ask_expiry
    bid_expiry := msg.bid_expiry
    auction_expiry := msg.auction_expiry
    operators := msg.operators
    min_price := msg.min_price }
  .ok { params := params, asks := [], bids := [], collection_bids := [], auctions := [] }

/-- An optional expiry-range update: validate the new range when present,
otherwise keep the current one (one `if let Some` block of
`execute_update_params`). -/
def updated_range (cur : ExpiryRange) (o : Option ExpiryRange) :
    Except ContractError ExpiryRange :=
  match o with
  | some r => do
      ExpiryRange.validate r
      pure r
  | none => pure cur

/-- Handler `execute_update_params`: an operator may update the marketplace params. -/
def execute_update_params (info : MessageInfo) (trading_fee_bps : Option Nat)
    (ask_expiry bid_expiry auction_expiry : Option ExpiryRange)
    (operators : Option (List Addr)) (min_price : Option Nat) (s : State) :
    Except ContractError (State × Response) := do
  let params := s.params
  only_operator info params
  let params := match trading_fee_bps with
    | some b => { params with trading_fee_percent_atomics := decimalPercent b }
    | none => params
  let r1 ← updated_range params.ask_expiry ask_expiry
  let params := { params with ask_expiry := r1 }
  let r2 ← updated_range params.bid_expiry bid_expiry
  let params := { params with bid_expiry := r2 }
  let r3 ← updated_range params.auction_expiry auction_expiry
  let params := { params with auction_expiry := r3 }
  let params := match operators with
    | some ops => { params with operators := ops }
    | none => params
  let params := match min_price with
    | some m => { params with min_price := m }
    | none => params
  .ok ({ s with params := params }, Response.new)

/-- Handler `execute_set_ask`: a seller lists an NFT at a fixed price. -/
def execute_set_ask (ownerOf : TokenId → Addr) (env : Env) (info : MessageInfo)
    (ask : Ask) (s : State) : Except ContractError (State × Response) := do
  nonpayable info
  let params := s.params
  ExpiryRange.is_valid params.ask_expiry env.block ask.expires_at
  price_validate ask.price params
  let existing_ask := lookupA s.asks ask.token_id
  only_owner_or_seller ownerOf info ask.token_id (existing_ask.map (fun a => a.seller))
  let s1 := { s with asks := insertA s.asks ask.token_id ask }
  let response := match existing_ask with
    | none => transfer_nft ask.token_id env.contract_address Response.new
    | some _ => Response.new
  let event : Event := ⟨"set-ask",
    [("collection", params.cw721_address), ("token_id", ask.token_id),
     ("seller", ask.seller), ("price", toString ask.price.amount ++ ask.price.denom),
     ("expires_at", toString ask.expires_at)]⟩
  .ok (s1, response.add_event event)

/-- Handler `execute_remove_ask`: the seller delists; custody returns to the seller. -/
def execute_remove_ask (info : MessageInfo) (token_id : TokenId) (s : State) :
    Except ContractError (State × Response) := do
  nonpayable info
  let ask ← loadE (lookupA s.asks token_id)
  only_seller info ask.seller
  let s1 := { s with asks := removeA s.asks token_id }
  let params := s.params
  let response := transfer_nft ask.token_id ask.seller Response.new
  let event : Event := ⟨"remove-ask",
    [("collection", params.cw721_address), ("token_id", token_id)]⟩
  .ok (s1, response.add_event event)

/-- Handler `execute_set_bid`: escrow a bid; refund and replace any prior bid by
the same bidder on the token; settle immediately against a live ask. -/
def execute_set_bid (env : Env) (info : MessageInfo) (bid : Bid) (s : State) :
    Except ContractError (State × Response) := do
  let params := s.params
  let payment_amount ← must_pay info params.denom
  failIf (bid.price.amount ≠ payment_amount)
    (ContractError.IncorrectBidPayment bid.price.amount payment_amount)
  price_validate bid.price params
  ExpiryRange.is_valid params.bid_expiry env.block bid.expires_at
  let k : TokenId × Addr := (bid.token_id, bid.bidder)
  let s1 := match lookupA s.bids k with
    | some _ => { s with bids := removeA s.bids k }
    | none => s
  let response := match lookupA s.bids k with
    | some existing_bid =>
        transfer_token existing_bid.price existing_bid.bidder "refund-bidder" Response.new
    | none => Response.new
  let matching_ask := match_bid s1 bid
  let s2 := match matching_ask with
    | some _ => { s1 with asks := removeA s1.asks bid.token_id }
    | none => store_bid s1 bid
  let response := match matching_ask with
    | some ask =>
        finalize_sale bid.bidder ask.token_id payment_amount (Ask.get_recipient ask)
          params response
    | none => response
  let event : Event := ⟨"set-bid",
    [("token_id", bid.token_id), ("bidder", bid.bidder),
     ("price", toString bid.price.amount ++ bid.price.denom),
     ("expires_at", toString bid.expires_at)]⟩
  .ok (s2, response.add_event event)

/-- Handler `execute_remove_bid`: a bidder withdraws their own bid and is refunded. -/
def execute_remove_bid (info : MessageInfo) (token_id : TokenId) (s : State) :
    Except ContractError (State × Response) := do
  nonpayable info
  let bidder := info.sender
  let k : TokenId × Addr := (token_id, bidder)
  let bid ← loadE (lookupA s.bids k)
  let s1 := { s with bids := removeA s.bids k }
  let response := transfer_token bid.price bid.bidder "refund-bidder" Response.new
  let event : Event := ⟨"remove-bid", [("token_id", token_id), ("bidder", bidder)]⟩
  .ok (s1, response.add_event event)

/-- Handler `execute_accept_bid`: the owner (or listed seller) accepts a bid; the
ask, when present, is consumed and its recipient paid, else the caller is
paid; the bid record is deleted and its escrow settled. -/
def execute_accept_bid (ownerOf : TokenId → Addr) (env : Env) (info : MessageInfo)
    (token_id : TokenId) (bidder : Addr) (s : State) :
    Except ContractError (State × Response) := do
  nonpayable info
  let k : TokenId × Addr := (token_id, bidder)
  let bid ← loadE (lookupA s.bids k)
  failIf (bid.is_expired env.block.time = true) ContractError.BidExpired
  let params := s.params
  let existing_ask := lookupA s.asks token_id
  only_owner_or_seller ownerOf info token_id (existing_ask.map (fun a => a.seller))
  let s1 := match existing_ask with
    | some ask => { s with asks := removeA s.asks ask.token_id }
    | none => s
  let payment_recipient := match existing_ask with
    | some ask => Ask.get_recipient ask
    | none => info.sender
  let response := finalize_sale bid.bidder token_id bid.price.amount
    payment_recipient params Response.new
  let s2 := { s1 with bids := removeA s1.bids k }
  let event : Event := ⟨"accept-bid",
    [("token_id", token_id), ("bidder", bidder),
     ("price", toString bid.price.amount ++ bid.price.denom),
     ("expires_at", toString bid.expires_at)]⟩
  .ok (s2, response.add_event event)

/-- Handler `execute_set_collection_bid`: escrow `price × units`; replace (with a
refund transfer) any prior collection bid from the same bidder. -/
def execute_set_collection_bid (env : Env) (info : MessageInfo)
    (collection_bid : CollectionBid) (s : State) :
    Except ContractError (State × Response) := do
  let params := s.params
  let payment_amount ← must_pay info params.denom
  price_validate ⟨params.denom, collection_bid.total_cost⟩ params
  failIf (collection_bid.total_cost ≠ payment_amount)
    (ContractError.IncorrectBidPayment collection_bid.total_cost payment_amount)
  ExpiryRange.is_valid params.bid_expiry env.block collection_bid.expires_at
  let k := collection_bid.bidder
  let s1 := match lookupA s.collection_bids k with
    | some _ => { s with collection_bids := removeA s.collection_bids k }
    | none => s
  let response := match lookupA s.collection_bids k with
    | some existing_bid =>
        transfer_token existing_bid.price existing_bid.bidder
          "refund-collection-bidder" Response.new
    | none => Response.new
  let s2 := { s1 with collection_bids := insertA s1.collection_bids k collection_bid }
  let event : Event := ⟨"set-collection-bid",
    [("bidder", collection_bid.bidder),
     ("price", toString collection_bid.price.amount ++ collection_bid.price.denom),
     ("units", toString collection_bid.units),
     ("expires_at", toString collection_bid.expires_at)]⟩
  .ok (s2, response.add_event event)

/-- Handler `execute_remove_collection_bid`: the bidder withdraws their collection
bid; the refund transfer carries the record's per-unit price. -/
def execute_remove_collection_bid (info : MessageInfo) (s : State) :
    Except ContractError (State × Response) := do
  nonpayable info
  let k := info.sender
  let collection_bid ← loadE (lookupA s.collection_bids k)
  let s1 := { s with collection_bids := removeA s.collection_bids k }
  let response := transfer_token collection_bid.price collection_bid.bidder
    "refund-collection-bidder" Response.new
  let event : Event := ⟨"remove-collection-bid", [("bidder", collection_bid.bidder)]⟩
  .ok (s1, response.add_event event)

/-- Handler `execute_accept_collection_bid`: the owner (or listed seller) of one
token fills one unit of a collection bid; a `units == 1` record is deleted,
otherwise its unit count is decremented and the record stored back. -/
def execute_accept_collection_bid (ownerOf : TokenId → Addr) (env : Env)
    (info : MessageInfo) (token_id : TokenId) (bidder : Addr) (s : State) :
    Except ContractError (State × Response) := do
  nonpayable info
  let k := bidder
  let collection_bid ← loadE (lookupA s.collection_bids k)
  failIf (collection_bid.is_expired env.block.time = true) ContractError.BidExpired
  let params := s.params
  let existing_ask := lookupA s.asks token_id
  only_owner_or_seller ownerOf info token_id (existing_ask.map (fun a => a.seller))
  let s1 := match existing_ask with
    | some ask => { s with asks := removeA s.asks ask.token_id }
    | none => s
  let payment_recipient := match existing_ask with
    | some ask => Ask.get_recipient ask
    | none => info.sender
  let s2 := match collection_bid.units with
    | 1 => { s1 with collection_bids := removeA s1.collection_bids k }
    | _ => store_collection_bid s1 { collection_bid with units := collection_bid.units - 1 }
  let cb1 := match collection_bid.units with
    | 1 => collection_bid
    | _ => { collection_bid with units := collection_bid.units - 1 }
  let response := finalize_sale cb1.bidder token_id cb1.price.amount
    payment_recipient params Response.new
  let event : Event := ⟨"accept-collection-bid",
    [("bidder", cb1.bidder),
     ("price", toString cb1.price.amount ++ cb1.price.denom),
     ("units", toString cb1.units),
     ("expires_at", toString cb1.expires_at)]⟩
  .ok (s2, response.add_event event)

/-- The reserve-price check of `execute_set_auction`: when a reserve price
is given it must pass price validation and be at least the starting price. -/
def validate_reserve (reserve_price : Option Coin) (starting_price : Coin)
    (params : Params) : Except ContractError Unit :=
  match reserve_price with
  | some rp => do
      price_validate rp params
      failIf (rp.amount < starting_price.amount)
        (ContractError.InvalidReservePrice rp.amount starting_price.amount)
  | none => pure ()

/-- Handler `execute_set_auction`: the owner opens an auction; fails when one
already exists for the token; the token moves into contract custody. -/
def execute_set_auction (ownerOf : TokenId → Addr) (env : Env) (info : MessageInfo)
    (auction : Auction) (s : State) : Except ContractError (State × Response) := do
  nonpayable info
  let params := s.params
  ExpiryRange.is_valid params.auction_expiry env.block auction.expires_at
  only_owner ownerOf info auction.token_id
  price_validate auction.starting_price params
  validate_reserve auction.reserve_price auction.starting_price params
  failIf ((lookupA s.auctions auction.token_id).isSome = true)
    (ContractError.AuctionAlreadyExists auction.token_id)
  let s1 := { s with auctions := insertA s.auctions auction.token_id auction }
  let response := transfer_nft auction.token_id env.contract_address Response.new
  let event : Event := ⟨"set-auction",
    [("collection", params.cw721_address), ("token_id", auction.token_id),
     ("seller", auction.seller),
     ("price", toString auction.starting_price.amount ++ auction.starting_price.denom),
     ("expires_at", toString auction.expires_at)]⟩
  .ok (s1, response.add_event event)

/-- Handler `execute_close_auction`: the seller closes a non-expired auction.  The
highest non-expired bid is fetched; when a reserve price is set and that
bid meets it the call fails with `ReservePriceRestriction`; otherwise the
sale is finalized when a highest bid exists and the seller accepts, else
the token returns to the seller with no funds moved. -/
def execute_close_auction (env : Env) (info : MessageInfo) (token_id : TokenId)
    (accept_highest_bid : Bool) (s : State) :
    Except ContractError (State × Response) := do
  nonpayable info
  let params := s.params
  let auction ← loadE (lookupA s.auctions token_id)
  only_seller info auction.seller
  failIf (auction.is_expired env.block.time = true) ContractError.AuctionExpired
  let highest_bid := query_highest_live_bid s token_id env.block.time
  let reserve_price_met := match highest_bid, auction.reserve_price with
    | some bid, some reserve_price => decide (reserve_price.amount ≤ bid.price.amount)
    | _, _ => false
  failIf (reserve_price_met = true)
    (ContractError.ReservePriceRestriction "must accept highest bid when reserve price is met")
  let is_sale := highest_bid.isSome && accept_highest_bid
  let response := match highest_bid, is_sale with
    | some bid, true =>
        finalize_sale bid.bidder auction.token_id bid.price.amount
          (Auction.get_recipient auction) params Response.new
    | _, _ => transfer_nft auction.token_id info.sender Response.new
  let event : Event := ⟨"close-auction",
    [("collection", params.cw721_address), ("token_id", auction.token_id),
     ("is_sale", toString is_sale)]⟩
  .ok (s, response.add_event event)

/-- The closed set of eleven execute messages (`msg.rs::ExecuteMsg`). -/
inductive Msg where
  | UpdateParams (trading_fee_bps : Option Nat)
      (ask_expiry bid_expiry auction_expiry : Option ExpiryRange)
      (operators : Option (List Addr)) (min_price : Option Nat)
  | SetAsk (token_id : TokenId) (price : Coin)
      (funds_recipient reserve_for : Option Addr) (expires_at : Nat)
  | RemoveAsk (token_id : TokenId)
  | SetBid (token_id : TokenId) (price : Coin) (expires_at : Nat)
  | RemoveBid (token_id : TokenId)
  | AcceptBid (token_id : TokenId) (bidder : Addr)
  | SetCollectionBid (units : Nat) (price : Coin) (expires_at : Nat)
  | RemoveCollectionBid
  | AcceptCollectionBid (token_id : TokenId) (bidder : Addr)
  | SetAuction (token_id : TokenId) (starting_price : Coin)
      (reserve_price : Option Coin) (funds_recipient : Option Addr) (expires_at : Nat)
  | CloseAuction (token_id : TokenId) (accept_highest_bid : Bool)
  deriving DecidableEq

/-- The top-level `execute` dispatcher, building the record each handler
receives the way `execute.rs` does (the sender becomes the ask's seller,
the bid's bidder, the collection bid's bidder, the auction's seller). -/
def execMsg (ownerOf : TokenId → Addr) (env : Env) (info : MessageInfo) (m : Msg)
    (s : State) : Except ContractError (State × Response) :=
  match m with
  | .UpdateParams a b c d e f => execute_update_params info a b c d e f s
  | .SetAsk token_id price funds_recipient reserve_for expires_at =>
      execute_set_ask ownerOf env info
        ⟨token_id, info.sender, price, funds_recipient, reserve_for, expires_at⟩ s
  | .RemoveAsk token_id => execute_remove_ask info token_id s
  | .SetBid token_id price expires_at =>
      execute_set_bid env info ⟨token_id, info.sender, price, expires_at⟩ s
  | .RemoveBid token_id => execute_remove_bid info token_id s
  | .AcceptBid token_id bidder => execute_accept_bid ownerOf env info token_id bidder s
  | .SetCollectionBid units price expires_at =>
      execute_set_collection_bid env info ⟨units, price, info.sender, expires_at⟩ s
  | .RemoveCollectionBid => execute_remove_collection_bid info s
  | .AcceptCollectionBid token_id bidder =>
      execute_accept_collection_bid ownerOf env info token_id bidder s
  | .SetAuction token_id starting_price reserve_price funds_recipient expires_at =>
      execute_set_auction ownerOf env info
        ⟨token_id, info.sender, starting_price, reserve_price, funds_recipient, expires_at⟩ s
  | .CloseAuction token_id accept_highest_bid =>
      execute_close_auction env info token_id accept_highest_bid s

/-- One call of a trace: its environment, message info, and message. -/
structure Step where
  env : Env
  info : MessageInfo
  msg : Msg
  deriving DecidableEq

/-- Total amount of a given denom among attached coins. -/
def coinsAmount (denom : String) : List Coin → Nat
  | [] => 0
  | c :: t => (if c.denom = denom then c.amount else 0) + coinsAmount denom t

/-- Total amount of a given denom sent out by the queued bank sends. -/
def sentAmount (denom : String) : List Action → Nat
  | [] => 0
  | Action.send _ c _ :: t => (if c.denom = denom then c.amount else 0) + sentAmount denom t
  | Action.transferNft _ _ :: t => sentAmount denom t

/-- Run a trace of calls.  A successful call commits its state and moves
the contract's bank balance in the settlement denom by the funds received
minus the funds sent; a failed call has no effect (total rollback). -/
def runSteps (ownerOf : TokenId → Addr) (denom : String) :
    State → Int → List Step → State × Int
  | s, bal, [] => (s, bal)
  | s, bal, step :: rest =>
    match execMsg ownerOf step.env step.info step.msg s with
    | .ok (s1, r) =>
        runSteps ownerOf denom s1
          (bal + (coinsAmount denom step.info.funds : Int) -
            (sentAmount denom r.messages : Int)) rest
    | .error _ => runSteps ownerOf denom s bal rest

/-- Sum of the escrowed prices of all stored bids. -/
def bidsEscrow : List ((TokenId × Addr) × Bid) → Nat
  | [] => 0
  | kv :: t => kv.2.price.amount + bidsEscrow t

/-- Sum of the escrowed `units × price` of all stored collection bids. -/
def collectionBidsEscrow : List (Addr × CollectionBid) → Nat
  | [] => 0
  | kv :: t => kv.2.units * kv.2.price.amount + collectionBidsEscrow t

/-- The escrow the stored records account for: outstanding bid prices plus
outstanding collection-bid totals. -/
def escrowSum (s : State) : Nat :=
  bidsEscrow s.bids + collectionBidsEscrow s.collection_bids

/-- Whether a call result is a success. -/
def exceptOk {α : Type} : Except ContractError α → Bool
  | .ok _ => true
  | .error _ => false

/-- Amount sent to a recipient under a given event label across the queued
bank sends. -/
def sumSendsTo (recipient : Addr) (label : String) : List Action → Nat
  | [] => 0
  | Action.send rec1 c l :: t =>
      (if rec1 = recipient ∧ l = label then c.amount else 0) + sumSendsTo recipient label t
  | Action.transferNft _ _ :: t => sumSendsTo recipient label t

/-- Bound on an update message's fee argument: any `trading_fee_bps` it
carries is at most 10000 (i.e. at most 100%). -/
def stepBpsOK : Msg → Bool
  | .UpdateParams (some b) _ _ _ _ _ => decide (b ≤ 10000)
  | _ => true

/-! ### Inversion and association-list lemmas -/

theorem bind_ok {α β : Type} {x : Except ContractError α}
    {f : α → Except ContractError β} {b : β} (h : x >>= f = .ok b) :
    ∃ a, x = .ok a ∧ f a = .ok b := by
  cases x with
  | error e => exact Except.noConfusion h
  | ok a => exact ⟨a, rfl, h⟩

theorem failIf_ok {c : Prop} [Decidable c] {e : ContractError} {u : Unit}
    (h : failIf c e = .ok u) : ¬c := by
  unfold failIf at h
  split at h
  · exact Except.noConfusion h
  · assumption

theorem failIf_not {c : Prop} [Decidable c] {e : ContractError} (h : ¬c) :
    failIf c e = .ok () := by
  unfold failIf
  exact if_neg h

theorem nonpayable_ok {info : MessageInfo} {u : Unit}
    (h : nonpayable info = .ok u) : info.funds = [] := by
  have := failIf_ok h
  exact not_not.mp this

theorem must_pay_ok {info : MessageInfo} {denom : String} {a : Nat}
    (h : must_pay info denom = .ok a) :
    info.funds = [⟨denom, a⟩] ∧ 0 < a := by
  unfold must_pay at h
  split at h
  · rename_i c hfunds
    split at h
    · rename_i hc
      simp only [Except.ok.injEq] at h
      refine ⟨?_, ?_⟩
      · rw [hfunds, ← hc.1, ← h]
      · rw [← h]; exact hc.2
    · exact Except.noConfusion h
  · exact Except.noConfusion h

theorem price_validate_ok {price : Coin} {params : Params} {u : Unit}
    (h : price_validate price params = .ok u) :
    price.denom = params.denom ∧ params.min_price ≤ price.amount ∧ 0 < price.amount := by
  have := failIf_ok h
  exact not_not.mp this

theorem only_seller_ok {info : MessageInfo} {seller : Addr} {u : Unit}
    (h : only_seller info seller = .ok u) : info.sender = seller := by
  have := failIf_ok h
  exact not_not.mp this

theorem loadE_ok {α : Type} {o : Option α} {a : α} (h : loadE o = .ok a) :
    o = some a := by
  cases o with
  | none => exact Except.noConfusion h
  | some b =>
    simp only [loadE, Except.ok.injEq] at h
    rw [h]

theorem lookupA_mem {κ α : Type} [DecidableEq κ] {l : List (κ × α)} {k : κ} {v : α}
    (h : lookupA l k = some v) : (k, v) ∈ l := by
  induction l with
  | nil => exact Option.noConfusion h
  | cons hd t ih =>
    match hd with
    | (k1, w) =>
      unfold lookupA at h
      split at h
      · rename_i hk
        simp only [Option.some.injEq] at h
        rw [hk, h]
        exact List.mem_cons_self _ _
      · exact List.mem_cons_of_mem _ (ih h)

theorem lookupA_removeA_self {κ α : Type} [DecidableEq κ] (l : List (κ × α)) (k : κ) :
    lookupA (removeA l k) k = none := by
  induction l with
  | nil => rfl
  | cons hd t ih =>
    match hd with
    | (k1, w) =>
      unfold removeA
      split
      · exact ih
      · rename_i hk
        unfold lookupA
        rw [if_neg hk]
        exact ih

theorem lookupA_insertA_self {κ α : Type} [DecidableEq κ] (l : List (κ × α))
    (k : κ) (v : α) : lookupA (insertA l k v) k = some v := by
  unfold insertA lookupA
  rw [if_pos rfl]

theorem countKey_removeA {κ α : Type} [DecidableEq κ] (l : List (κ × α)) (k : κ) :
    countKey (removeA l k) k = 0 := by
  induction l with
  | nil => rfl
  | cons hd t ih =>
    match hd with
    | (k1, w) =>
      unfold removeA
      split
      · exact ih
      · rename_i hk
        unfold countKey at ih ⊢
        rw [List.filter_cons]
        have hc : (decide (((k1, w) : κ × α).1 = k)) = false := by
          simpa using fun hcon => hk hcon.symm
        rw [hc]
        simp only [Bool.false_eq_true, if_false]
        exact ih

theorem countKey_insertA {κ α : Type} [DecidableEq κ] (l : List (κ × α))
    (k : κ) (v : α) : countKey (insertA l k v) k = 1 := by
  unfold insertA countKey
  rw [List.filter_cons]
  have hc : (decide (((k, v) : κ × α).1 = k)) = true := by simp
  rw [hc]
  simp only [if_true]
  have := countKey_removeA l k
  unfold countKey at this
  rw [List.length_cons, this]

theorem query_none {s : State} {token_id : TokenId} {now : Nat}
    (h : ∀ kv ∈ s.bids, kv.1.1 = token_id → kv.2.expires_at ≤ now) :
    query_highest_live_bid s token_id now = none := by
  unfold query_highest_live_bid
  have hf : s.bids.filter
      (fun kv => decide (kv.1.1 = token_id ∧ now < kv.2.expires_at)) = [] := by
    apply List.filter_eq_nil_iff.mpr
    intro kv hkv
    simp only [decide_eq_true_eq, not_and, not_lt]
    exact h kv hkv
  rw [hf]
  rfl

/-! ### Concrete fixtures -/

def baseRange : ExpiryRange := ⟨0, 1000⟩

def baseParams : Params :=
  ⟨"nft", "coin", "fc", decimalPercent 200, baseRange, baseRange, baseRange, ["op"], 1⟩

def baseMsg : InstantiateMsg :=
  ⟨"nft", "coin", "fc", 200, baseRange, baseRange, baseRange, ["op"], 1⟩

/-- Ownership oracle for the examples: the seller "s" owns every token. -/
def sellerOwns : TokenId → Addr := fun _ => "s"

def baseEnv : Env := ⟨⟨0⟩, "market"⟩

def c1Auction : Auction := ⟨"t", "s", ⟨"coin", 100⟩, some ⟨"coin", 150⟩, none, 100⟩

def c1Bid : Bid := ⟨"t", "b", ⟨"coin", 160⟩, 100⟩

def c1State : State := ⟨baseParams, [], [(("t", "b"), c1Bid)], [], [("t", c1Auction)]⟩

def c2State0 : State := ⟨baseParams, [], [], [], []⟩

def c2Steps : List Step :=
  [⟨baseEnv, ⟨"s", []⟩, .SetAuction "t" ⟨"coin", 100⟩ none none 100⟩,
   ⟨baseEnv, ⟨"b", [⟨"coin", 100⟩]⟩, .SetBid "t" ⟨"coin", 100⟩ 100⟩,
   ⟨baseEnv, ⟨"s", []⟩, .CloseAuction "t" true⟩]

def c2Final : State :=
  ⟨baseParams, [], [(("t", "b"), ⟨"t", "b", ⟨"coin", 100⟩, 100⟩)], [],
   [("t", ⟨"t", "s", ⟨"coin", 100⟩, none, none, 100⟩)]⟩

def c3Auction : Auction := ⟨"t", "s", ⟨"coin", 100⟩, none, none, 100⟩

def c3State : State :=
  ⟨baseParams, [], [(("t", "b"), ⟨"t", "b", ⟨"coin", 100⟩, 100⟩)], [], [("t", c3Auction)]⟩

def c3Resp : Response :=
  ⟨[.send "fc" ⟨"coin", 2⟩ "payout-market", .send "s" ⟨"coin", 98⟩ "payout-seller",
    .transferNft "t" "b"],
   [⟨"close-auction", [("collection", "nft"), ("token_id", "t"), ("is_sale", "true")]⟩]⟩

def c4Step : Step := ⟨baseEnv, ⟨"op", []⟩, .UpdateParams (some 20000) none none none none none⟩

def c4Final : State :=
  ⟨⟨"nft", "coin", "fc", decimalPercent 20000, baseRange, baseRange, baseRange, ["op"], 1⟩,
   [], [], [], []⟩

/-! ### Claim theorems -/

/-- C1 (code_bug): in a state with a live auction on token "t" whose reserve
price 150 is met by the live bid of 160, `CloseAuction` by the seller fails
with `ReservePriceRestriction` for `accept_highest_bid = true` exactly as it
does for `false` — the handler never consults the flag, contradicting both
the claim and the code's own error message. -/
theorem close_auction_reserve_met_rejects_acceptance :
    execMsg sellerOwns baseEnv ⟨"s", []⟩ (.CloseAuction "t" true) c1State =
      .error (.ReservePriceRestriction "must accept highest bid when reserve price is met")
    ∧ execMsg sellerOwns baseEnv ⟨"s", []⟩ (.CloseAuction "t" false) c1State =
      .error (.ReservePriceRestriction "must accept highest bid when reserve price is met") := by
  decide

/-- C2 (code_bug): a reachable trace — instantiate, `SetAuction`,
`SetBid`(100, paid 100), `CloseAuction`(accept) — ends with the contract's
escrow balance at 0 while the stored records still account for 100: the
close pays out the winning bid's escrow without deleting the bid record. -/
theorem close_auction_escrow_leak :
    instantiate baseMsg = .ok c2State0
    ∧ runSteps sellerOwns "coin" c2State0 0 c2Steps = (c2Final, 0)
    ∧ escrowSum c2Final = 100 := by
  decide

/-- C3 (code_bug): a successful `CloseAuction` (here a sale: no reserve,
live bid 100, seller accepts) returns `Ok` with the state completely
unchanged — in particular the `Auction` record for the token still exists,
so the close is not terminal. -/
theorem close_auction_not_terminal :
    execMsg sellerOwns baseEnv ⟨"s", []⟩ (.CloseAuction "t" true) c3State =
      .ok (c3State, c3Resp)
    ∧ lookupA c3State.auctions "t" = some c3Auction := by
  decide

/-- C4 (counterexample): from a freshly instantiated state, one successful
`UpdateParams` by the operator with `trading_fee_bps = 20000` stores a
trading fee percent of 200 — above 100 — so the claimed range invariant
fails for arbitrary `trading_fee_bps` arguments. -/
theorem update_params_fee_above_100 :
    instantiate baseMsg = .ok c2State0
    ∧ runSteps sellerOwns "coin" c2State0 0 [c4Step] = (c4Final, 0)
    ∧ 100 * 10 ^ 18 < c4Final.params.trading_fee_percent_atomics := by
  decide

/-! ### Parameter preservation across the handlers -/

theorem execute_set_ask_params {ownerOf : TokenId → Addr} {env : Env}
    {info : MessageInfo} {ask : Ask} {s s1 : State} {r : Response}
    (h : execute_set_ask ownerOf env info ask s = .ok (s1, r)) :
    s1.params = s.params := by
  unfold execute_set_ask at h
  rcases bind_ok h with ⟨u1, h1, h⟩
  rcases bind_ok h with ⟨u2, h2, h⟩
  rcases bind_ok h with ⟨u3, h3, h⟩
  rcases bind_ok h with ⟨u4, h4, h⟩
  simp only [Except.ok.injEq, Prod.mk.injEq] at h
  rw [← h.1]

theorem execute_remove_ask_params {info : MessageInfo} {token_id : TokenId}
    {s s1 : State} {r : Response}
    (h : execute_remove_ask info token_id s = .ok (s1, r)) :
    s1.params = s.params := by
  unfold execute_remove_ask at h
  rcases bind_ok h with ⟨u1, h1, h⟩
  rcases bind_ok h with ⟨a, h2, h⟩
  rcases bind_ok h with ⟨u2, h3, h⟩
  simp only [Except.ok.injEq, Prod.mk.injEq] at h
  rw [← h.1]

theorem execute_set_bid_params {env : Env} {info : MessageInfo} {bid : Bid}
    {s s1 : State} {r : Response}
    (h : execute_set_bid env info bid s = .ok (s1, r)) :
    s1.params = s.params := by
  unfold execute_set_bid at h
  rcases bind_ok h with ⟨a, h1, h⟩
  rcases bind_ok h with ⟨u1, h2, h⟩
  rcases bind_ok h with ⟨u2, h3, h⟩
  rcases bind_ok h with ⟨u3, h4, h⟩
  simp only [Except.ok.injEq, Prod.mk.injEq] at h
  rw [← h.1]
  split
  · split <;> rfl
  · split <;> simp [store_bid]

theorem execute_remove_bid_params {info : MessageInfo} {token_id : TokenId}
    {s s1 : State} {r : Response}
    (h : execute_remove_bid info token_id s = .ok (s1, r)) :
    s1.params = s.params := by
  unfold execute_remove_bid at h
  rcases bind_ok h with ⟨u1, h1, h⟩
  rcases bind_ok h with ⟨a, h2, h⟩
  simp only [Except.ok.injEq, Prod.mk.injEq] at h
  rw [← h.1]

theorem execute_accept_bid_params {ownerOf : TokenId → Addr} {env : Env}
    {info : MessageInfo} {token_id : TokenId} {bidder : Addr}
    {s s1 : State} {r : Response}
    (h : execute_accept_bid ownerOf env info token_id bidder s = .ok (s1, r)) :
    s1.params = s.params := by
  unfold execute_accept_bid at h
  rcases bind_ok h with ⟨u1, h1, h⟩
  rcases bind_ok h with ⟨a, h2, h⟩
  rcases bind_ok h with ⟨u2, h3, h⟩
  rcases bind_ok h with ⟨u3, h4, h⟩
  simp only [Except.ok.injEq, Prod.mk.injEq] at h
  rw [← h.1]
  split <;> rfl

theorem execute_set_collection_bid_params {env : Env} {info : MessageInfo}
    {cb : CollectionBid} {s s1 : State} {r : Response}
    (h : execute_set_collection_bid env info cb s = .ok (s1, r)) :
    s1.params = s.params := by
  unfold execute_set_collection_bid at h
  rcases bind_ok h with ⟨a, h1, h⟩
  rcases bind_ok h with ⟨u1, h2, h⟩
  rcases bind_ok h with ⟨u2, h3, h⟩
  rcases bind_ok h with ⟨u3, h4, h⟩
  simp only [Except.ok.injEq, Prod.mk.injEq] at h
  rw [← h.1]
  split <;> rfl

theorem execute_remove_collection_bid_params {info : MessageInfo}
    {s s1 : State} {r : Response}
    (h : execute_remove_collection_bid info s = .ok (s1, r)) :
    s1.params = s.params := by
  unfold execute_remove_collection_bid at h
  rcases bind_ok h with ⟨u1, h1, h⟩
  rcases bind_ok h with ⟨a, h2, h⟩
  simp only [Except.ok.injEq, Prod.mk.injEq] at h
  rw [← h.1]

theorem execute_accept_collection_bid_params {ownerOf : TokenId → Addr} {env : Env}
    {info : MessageInfo} {token_id : TokenId} {bidder : Addr}
    {s s1 : State} {r : Response}
    (h : execute_accept_collection_bid ownerOf env info token_id bidder s = .ok (s1, r)) :
    s1.params = s.params := by
  unfold execute_accept_collection_bid at h
  rcases bind_ok h with ⟨u1, h1, h⟩
  rcases bind_ok h with ⟨a, h2, h⟩
  rcases bind_ok h with ⟨u2, h3, h⟩
  rcases bind_ok h with ⟨u3, h4, h⟩
  simp only [Except.ok.injEq, Prod.mk.injEq] at h
  rw [← h.1]
  split <;> split <;> simp [store_collection_bid]

theorem execute_set_auction_params {ownerOf : TokenId → Addr} {env : Env}
    {info : MessageInfo} {auction : Auction} {s s1 : State} {r : Response}
    (h : execute_set_auction ownerOf env info auction s = .ok (s1, r)) :
    s1.params = s.params := by
  unfold execute_set_auction at h
  rcases bind_ok h with ⟨u1, h1, h⟩
  rcases bind_ok h with ⟨u2, h2, h⟩
  rcases bind_ok h with ⟨u3, h3, h⟩
  rcases bind_ok h with ⟨u4, h4, h⟩
  rcases bind_ok h with ⟨u5, h5, h⟩
  rcases bind_ok h with ⟨u6, h6, h⟩
  simp only [Except.ok.injEq, Prod.mk.injEq] at h
  rw [← h.1]

theorem execute_close_auction_params {env : Env} {info : MessageInfo}
    {token_id : TokenId} {accept_highest_bid : Bool} {s s1 : State} {r : Response}
    (h : execute_close_auction env info token_id accept_highest_bid s = .ok (s1, r)) :
    s1.params = s.params := by
  unfold execute_close_auction at h
  rcases bind_ok h with ⟨u1, h1, h⟩
  rcases bind_ok h with ⟨a, h2, h⟩
  rcases bind_ok h with ⟨u2, h3, h⟩
  rcases bind_ok h with ⟨u3, h4, h⟩
  rcases bind_ok h with ⟨u4, h5, h⟩
  simp only [Except.ok.injEq, Prod.mk.injEq] at h
  rw [← h.1]

theorem execute_update_params_fee {info : MessageInfo} {tfb : Option Nat}
    {ae be ce : Option ExpiryRange} {ops : Option (List Addr)} {mp : Option Nat}
    {s s1 : State} {r : Response}
    (hb : ∀ b, tfb = some b → b ≤ 10000)
    (h : execute_update_params info tfb ae be ce ops mp s = .ok (s1, r))
    (hs : s.params.trading_fee_percent_atomics ≤ 100 * 10 ^ 18) :
    s1.params.trading_fee_percent_atomics ≤ 100 * 10 ^ 18 := by
  unfold execute_update_params at h
  rcases bind_ok h with ⟨u1, h1, h⟩
  rcases bind_ok h with ⟨r1, h2, h⟩
  rcases bind_ok h with ⟨r2, h3, h⟩
  rcases bind_ok h with ⟨r3, h4, h⟩
  simp only [Except.ok.injEq, Prod.mk.injEq] at h
  rw [← h.1]
  cases tfb with
  | none => cases ops <;> cases mp <;> dsimp only <;> exact hs
  | some b =>
    have hble : b ≤ 10000 := hb b rfl
    have hdp : decimalPercent b ≤ 100 * 10 ^ 18 := by
      unfold decimalPercent
      calc b * 10 ^ 16 ≤ 10000 * 10 ^ 16 := Nat.mul_le_mul_right _ hble
        _ = 100 * 10 ^ 18 := by norm_num
    cases ops <;> cases mp <;> dsimp only <;> exact hdp

/-- Fee-percent bound carried by one successful call whose update argument
is bounded. -/
theorem execMsg_fee {ownerOf : TokenId → Addr} {env : Env} {info : MessageInfo}
    {m : Msg} {s s1 : State} {r : Response}
    (hm : stepBpsOK m = true)
    (h : execMsg ownerOf env info m s = .ok (s1, r))
    (hs : s.params.trading_fee_percent_atomics ≤ 100 * 10 ^ 18) :
    s1.params.trading_fee_percent_atomics ≤ 100 * 10 ^ 18 := by
  cases m with
  | UpdateParams a b c d e f =>
    refine execute_update_params_fee ?_ h hs
    intro v hv
    rw [hv] at hm
    simpa [stepBpsOK] using hm
  | SetAsk t p fr rf e => rw [execute_set_ask_params h]; exact hs
  | RemoveAsk t => rw [execute_remove_ask_params h]; exact hs
  | SetBid t p e => rw [execute_set_bid_params h]; exact hs
  | RemoveBid t => rw [execute_remove_bid_params h]; exact hs
  | AcceptBid t b => rw [execute_accept_bid_params h]; exact hs
  | SetCollectionBid u p e => rw [execute_set_collection_bid_params h]; exact hs
  | RemoveCollectionBid => rw [execute_remove_collection_bid_params h]; exact hs
  | AcceptCollectionBid t b => rw [execute_accept_collection_bid_params h]; exact hs
  | SetAuction t sp rp fr e => rw [execute_set_auction_params h]; exact hs
  | CloseAuction t a => rw [execute_close_auction_params h]; exact hs

/-- Fee-percent bound along a whole trace of bounded steps. -/
theorem runSteps_fee (ownerOf : TokenId → Addr) (denom : String) :
    ∀ (steps : List Step) (s : State) (bal : Int),
      (∀ st ∈ steps, stepBpsOK st.msg = true) →
      s.params.trading_fee_percent_atomics ≤ 100 * 10 ^ 18 →
      (runSteps ownerOf denom s bal steps).1.params.trading_fee_percent_atomics
        ≤ 100 * 10 ^ 18 := by
  intro steps
  induction steps with
  | nil => intro s bal hsteps hs; exact hs
  | cons st rest ih =>
    intro s bal hsteps hs
    have hst : stepBpsOK st.msg = true := hsteps st (List.mem_cons_self _ _)
    have hrest : ∀ x ∈ rest, stepBpsOK x.msg = true :=
      fun x hx => hsteps x (List.mem_cons_of_mem _ hx)
    unfold runSteps
    cases hx : execMsg ownerOf st.env st.info st.msg s with
    | ok p =>
      match p with
      | (s1, r) => exact ih s1 _ hrest (execMsg_fee hst hx hs)
    | error e => exact ih s bal hrest hs

def c4WStep : Step := ⟨baseEnv, ⟨"op", []⟩, .UpdateParams (some 9999) none none none none none⟩

/-- C4 (amended): provided every supplied `trading_fee_bps` — at instantiate
and in each update step of the trace — is at most 10000, the stored trading
fee percent stays in [0, 100] (at most 100 whole-percent units in `Decimal`
atomics; the lower bound is inherent to the unsigned representation). -/
theorem params_fee_percent_in_range (imsg : InstantiateMsg) (s0 : State)
    (ownerOf : TokenId → Addr) (denom : String) (bal : Int) (steps : List Step)
    (hbps : imsg.trading_fee_bps ≤ 10000)
    (h0 : instantiate imsg = .ok s0)
    (hsteps : ∀ st ∈ steps, stepBpsOK st.msg = true) :
    (runSteps ownerOf denom s0 bal steps).1.params.trading_fee_percent_atomics
      ≤ 100 * 10 ^ 18 := by
  have h0p : s0.params.trading_fee_percent_atomics = decimalPercent imsg.trading_fee_bps := by
    unfold instantiate at h0
    rcases bind_ok h0 with ⟨u1, h1, h0⟩
    rcases bind_ok h0 with ⟨u2, h2, h0⟩
    simp only [Except.ok.injEq] at h0
    rw [← h0]
  have hinit : s0.params.trading_fee_percent_atomics ≤ 100 * 10 ^ 18 := by
    rw [h0p]
    unfold decimalPercent
    calc imsg.trading_fee_bps * 10 ^ 16 ≤ 10000 * 10 ^ 16 := Nat.mul_le_mul_right _ hbps
      _ = 100 * 10 ^ 18 := by norm_num
  exact runSteps_fee ownerOf denom steps s0 bal hsteps hinit

/-- Witness for C4: a concrete instantiate with 2% fee followed by a
bounded update to 99.99%. -/
theorem params_fee_percent_in_range_witness :
    (runSteps sellerOwns "coin" c2State0 0 [c4WStep]).1.params.trading_fee_percent_atomics
      ≤ 100 * 10 ^ 18 :=
  params_fee_percent_in_range baseMsg c2State0 sellerOwns "coin" 0 [c4WStep]
    (by decide) (by decide) (by decide)

/-- C5: `SetBid` whose attached funds are not exactly the offered price coin
(wrong amount, wrong denom, or not a single coin) always fails, and the
single-step trace leaves the state and the escrow balance unchanged. -/
theorem set_bid_wrong_payment_fails (ownerOf : TokenId → Addr) (env : Env)
    (info : MessageInfo) (token_id : TokenId) (price : Coin) (expires_at : Nat)
    (s : State) (denom : String) (bal : Int)
    (hneq : info.funds ≠ [price]) :
    exceptOk (execMsg ownerOf env info (.SetBid token_id price expires_at) s) = false
    ∧ runSteps ownerOf denom s bal [⟨env, info, .SetBid token_id price expires_at⟩]
        = (s, bal) := by
  have hfail : ∀ p : State × Response,
      execMsg ownerOf env info (.SetBid token_id price expires_at) s ≠ .ok p := by
    intro p h
    unfold execMsg execute_set_bid at h
    rcases bind_ok h with ⟨payment, h1, h⟩
    rcases bind_ok h with ⟨u1, h2, h⟩
    rcases bind_ok h with ⟨u2, h3, h⟩
    obtain ⟨hfunds, hpos⟩ := must_pay_ok h1
    have hpa : price.amount = payment := not_not.mp (failIf_ok h2)
    obtain ⟨hd, hmin, hposp⟩ := price_validate_ok h3
    apply hneq
    have hc : price = (⟨s.params.denom, payment⟩ : Coin) := by
      cases price with
      | mk d a => exact Coin.mk.injEq .. ▸ congrArg₂ Coin.mk hd hpa
    rw [hfunds, hc]
  constructor
  · cases hx : execMsg ownerOf env info (.SetBid token_id price expires_at) s with
    | ok p => exact absurd hx (hfail p)
    | error e => rfl
  · unfold runSteps
    dsimp only
    cases hx : execMsg ownerOf env info (.SetBid token_id price expires_at) s with
    | ok p => exact absurd hx (hfail p)
    | error e => rfl

def c5Info : MessageInfo := ⟨"b", []⟩

/-- Witness for C5: bidding 100coin with no funds attached fails and
changes nothing. -/
theorem set_bid_wrong_payment_fails_witness :
    exceptOk (execMsg sellerOwns baseEnv c5Info (.SetBid "t" ⟨"coin", 100⟩ 100) c2State0)
      = false
    ∧ runSteps sellerOwns "coin" c2State0 0
        [⟨baseEnv, c5Info, .SetBid "t" ⟨"coin", 100⟩ 100⟩] = (c2State0, 0) :=
  set_bid_wrong_payment_fails sellerOwns baseEnv c5Info "t" ⟨"coin", 100⟩ 100 c2State0
    "coin" 0 (by decide)

/-- C6: a successful `SetBid` by a bidder who already holds a live bid on
the token first deletes that prior bid — afterwards the `(token, bidder)`
key holds nothing when the call settled against a live ask, and exactly
the newly stored bid otherwise — and queues a full refund of the prior
bid's escrowed price to that same bidder; the attached payment is exactly
the new price coin, so the bidder's net outflow for the call is
`newPrice − oldPrice` (counting the escrow payment and the refund, before
any payout of an immediate match). -/
theorem set_bid_replaces_and_refunds (ownerOf : TokenId → Addr) (env : Env)
    (info : MessageInfo) (token_id : TokenId) (price : Coin) (expires_at : Nat)
    (s s1 : State) (r : Response) (old : Bid)
    (hold : lookupA s.bids (token_id, info.sender) = some old)
    (hlive : old.is_expired env.block.time = false)
    (hbidder : old.bidder = info.sender)
    (h : execMsg ownerOf env info (.SetBid token_id price expires_at) s = .ok (s1, r)) :
    lookupA s1.bids (token_id, info.sender) =
      (match lookupA s.asks token_id with
       | some _ => none
       | none => some (⟨token_id, info.sender, price, expires_at⟩ : Bid))
    ∧ sumSendsTo info.sender "refund-bidder" r.messages = old.price.amount
    ∧ info.funds = [price]
    ∧ (coinsAmount s.params.denom info.funds : Int)
        - (sumSendsTo info.sender "refund-bidder" r.messages : Int)
        = (price.amount : Int) - (old.price.amount : Int) := by
  unfold execMsg execute_set_bid at h
  rcases bind_ok h with ⟨payment, h1, h⟩
  rcases bind_ok h with ⟨u1, h2, h⟩
  rcases bind_ok h with ⟨u2, h3, h⟩
  rcases bind_ok h with ⟨u3, h4, h⟩
  obtain ⟨hfunds, hpos⟩ := must_pay_ok h1
  have hpa : price.amount = payment := not_not.mp (failIf_ok h2)
  obtain ⟨hd, hmin, hposp⟩ := price_validate_ok h3
  have hpc : price = (⟨s.params.denom, payment⟩ : Coin) := by
    cases price with
    | mk d a => exact Coin.mk.injEq .. ▸ congrArg₂ Coin.mk hd hpa
  have hfp : info.funds = [price] := by rw [hfunds, hpc]
  dsimp only at h
  rw [hold] at h
  dsimp only [match_bid] at h
  have hmain : lookupA s1.bids (token_id, info.sender) =
      (match lookupA s.asks token_id with
       | some _ => none
       | none => some (⟨token_id, info.sender, price, expires_at⟩ : Bid))
      ∧ sumSendsTo info.sender "refund-bidder" r.messages = old.price.amount := by
    cases hma : lookupA s.asks token_id with
    | none =>
      rw [hma] at h
      simp only [Except.ok.injEq, Prod.mk.injEq] at h
      constructor
      · rw [← h.1]
        dsimp only [store_bid]
        exact lookupA_insertA_self _ _ _
      · rw [← h.2]
        simp [sumSendsTo, store_bid, transfer_token, Response.add_event, Response.new, hbidder]
    | some ask =>
      rw [hma] at h
      simp only [Except.ok.injEq, Prod.mk.injEq] at h
      constructor
      · rw [← h.1]
        exact lookupA_removeA_self s.bids (token_id, info.sender)
      · rw [← h.2]
        simp [sumSendsTo, finalize_sale, transfer_token, transfer_nft,
          Response.add_event, Response.new, hbidder]
  refine ⟨hmain.1, hmain.2, hfp, ?_⟩
  rw [hmain.2, hfp]
  have hd2 : price.denom = s.params.denom := hd
  have hca : coinsAmount s.params.denom [price] = price.amount := by
    simp [coinsAmount, hd2]
  rw [hca]

def c6Old : Bid := ⟨"t", "b", ⟨"coin", 50⟩, 100⟩

def c6State : State := ⟨baseParams, [], [(("t", "b"), c6Old)], [], []⟩

def c6Info : MessageInfo := ⟨"b", [⟨"coin", 100⟩]⟩

def c6Out : State × Response :=
  (⟨baseParams, [], [(("t", "b"), ⟨"t", "b", ⟨"coin", 100⟩, 100⟩)], [], []⟩,
   ⟨[.send "b" ⟨"coin", 50⟩ "refund-bidder"],
    [⟨"set-bid", [("token_id", "t"), ("bidder", "b"), ("price", "100coin"),
      ("expires_at", "100")]⟩]⟩)

/-- Witness for C6: replacing a live 50coin bid with a 100coin bid deletes
the old record (the key now holds the new 100coin bid; no ask was live),
refunds 50, and nets out at 100 − 50. -/
theorem set_bid_replaces_and_refunds_witness :
    lookupA c6Out.1.bids ("t", "b") =
      (match lookupA c6State.asks "t" with
       | some _ => none
       | none => some (⟨"t", "b", ⟨"coin", 100⟩, 100⟩ : Bid))
    ∧ sumSendsTo "b" "refund-bidder" c6Out.2.messages = 50
    ∧ c6Info.funds = [⟨"coin", 100⟩]
    ∧ (coinsAmount "coin" c6Info.funds : Int)
        - (sumSendsTo "b" "refund-bidder" c6Out.2.messages : Int)
        = ((100 : Nat) : Int) - ((50 : Nat) : Int) :=
  set_bid_replaces_and_refunds sellerOwns baseEnv c6Info "t" ⟨"coin", 100⟩ 100
    c6State c6Out.1 c6Out.2 c6Old (by decide) (by decide) (by decide) (by decide)

/-- C7: after a successful `SetAsk` exactly one Ask record exists for the
token, and the response queues the token-custody transfer into the contract
exactly when no Ask existed before the call (first listing); re-listing
queues no custody transfer. -/
theorem set_ask_unique_and_custody_once (ownerOf : TokenId → Addr) (env : Env)
    (info : MessageInfo) (token_id : TokenId) (price : Coin)
    (funds_recipient reserve_for : Option Addr) (expires_at : Nat)
    (s s1 : State) (r : Response)
    (h : execMsg ownerOf env info
      (.SetAsk token_id price funds_recipient reserve_for expires_at) s = .ok (s1, r)) :
    countKey s1.asks token_id = 1
    ∧ r.messages = (match lookupA s.asks token_id with
        | none => [Action.transferNft token_id env.contract_address]
        | some _ => []) := by
  unfold execMsg execute_set_ask at h
  rcases bind_ok h with ⟨u1, h1, h⟩
  rcases bind_ok h with ⟨u2, h2, h⟩
  rcases bind_ok h with ⟨u3, h3, h⟩
  rcases bind_ok h with ⟨u4, h4, h⟩
  dsimp only at h
  cases hma : lookupA s.asks token_id with
  | none =>
    rw [hma] at h
    simp only [Except.ok.injEq, Prod.mk.injEq] at h
    refine ⟨?_, ?_⟩
    · rw [← h.1]
      exact countKey_insertA s.asks token_id _
    · rw [← h.2]
      simp [transfer_nft, Response.new, Response.add_event]
  | some ask0 =>
    rw [hma] at h
    simp only [Except.ok.injEq, Prod.mk.injEq] at h
    refine ⟨?_, ?_⟩
    · rw [← h.1]
      exact countKey_insertA s.asks token_id _
    · rw [← h.2]
      simp [Response.new, Response.add_event]

def c7Ask : Ask := ⟨"t", "s", ⟨"coin", 100⟩, none, none, 100⟩

def c7Out : State × Response :=
  (⟨baseParams, [("t", c7Ask)], [], [], []⟩,
   ⟨[.transferNft "t" "market"],
    [⟨"set-ask", [("collection", "nft"), ("token_id", "t"), ("seller", "s"),
      ("price", "100coin"), ("expires_at", "100")]⟩]⟩)

/-- Witness for C7: a first listing stores exactly one Ask and queues
exactly the custody transfer into the contract. -/
theorem set_ask_unique_and_custody_once_witness :
    countKey c7Out.1.asks "t" = 1
    ∧ c7Out.2.messages = (match lookupA c2State0.asks "t" with
        | none => [Action.transferNft "t" baseEnv.contract_address]
        | some _ => []) :=
  set_ask_unique_and_custody_once sellerOwns baseEnv ⟨"s", []⟩ "t" ⟨"coin", 100⟩
    none none 100 c2State0 c7Out.1 c7Out.2 (by decide)

/-- C8: `AcceptBid(token, bidder)` on a stored bid fails whenever that bid
is expired at the block time; on success the bid record and any Ask record
for the token are deleted, the bid's escrowed amount is paid out fee-split
— the remainder to the ask's recipient when an ask existed and otherwise to
the calling sender — and the token is transferred to the bidder; no refund
send is queued (the escrow is consumed). -/
theorem accept_bid_settles (ownerOf : TokenId → Addr) (env : Env) (info : MessageInfo)
    (token_id : TokenId) (bidder : Addr) (s : State) (bid : Bid)
    (hask : ∀ kv ∈ s.asks, kv.2.token_id = kv.1)
    (hb : lookupA s.bids (token_id, bidder) = some bid) :
    (bid.is_expired env.block.time = true →
      exceptOk (execMsg ownerOf env info (.AcceptBid token_id bidder) s) = false)
    ∧ (∀ s1 r, execMsg ownerOf env info (.AcceptBid token_id bidder) s = .ok (s1, r) →
        lookupA s1.bids (token_id, bidder) = none
        ∧ lookupA s1.asks token_id = none
        ∧ r.messages =
            [Action.send s.params.collector_address
               ⟨s.params.denom, feeAmount bid.price.amount s.params⟩ "payout-market",
             Action.send
               (match lookupA s.asks token_id with
                | some ask => Ask.get_recipient ask
                | none => info.sender)
               ⟨s.params.denom, bid.price.amount - feeAmount bid.price.amount s.params⟩
               "payout-seller",
             Action.transferNft token_id bid.bidder]) := by
  constructor
  · intro hexp
    have hnot : ∀ p : State × Response,
        execMsg ownerOf env info (.AcceptBid token_id bidder) s ≠ .ok p := by
      intro p h
      unfold execMsg execute_accept_bid at h
      rcases bind_ok h with ⟨u1, h1, h⟩
      rcases bind_ok h with ⟨bid1, h2, h⟩
      have hb1 : bid1 = bid := by
        have := loadE_ok h2
        rw [hb] at this
        exact (Option.some.injEq _ _ ▸ this).symm
      subst hb1
      rcases bind_ok h with ⟨u2, h3, h⟩
      exact failIf_ok h3 hexp
    cases hx : execMsg ownerOf env info (.AcceptBid token_id bidder) s with
    | ok p => exact absurd hx (hnot p)
    | error e => rfl
  · intro s1 r h
    unfold execMsg execute_accept_bid at h
    rcases bind_ok h with ⟨u1, h1, h⟩
    rcases bind_ok h with ⟨bid1, h2, h⟩
    have hb1 : bid1 = bid := by
      have := loadE_ok h2
      rw [hb] at this
      exact (Option.some.injEq _ _ ▸ this).symm
    subst hb1
    rcases bind_ok h with ⟨u2, h3, h⟩
    rcases bind_ok h with ⟨u3, h4, h⟩
    dsimp only at h
    cases hma : lookupA s.asks token_id with
    | none =>
      rw [hma] at h
      simp only [Except.ok.injEq, Prod.mk.injEq] at h
      refine ⟨?_, ?_, ?_⟩
      · rw [← h.1]
        exact lookupA_removeA_self s.bids (token_id, bidder)
      · rw [← h.1]
        exact hma
      · rw [← h.2]
        simp [finalize_sale, transfer_token, transfer_nft, Response.new, Response.add_event]
    | some ask0 =>
      have htid : ask0.token_id = token_id := hask (token_id, ask0) (lookupA_mem hma)
      rw [hma] at h
      simp only [Except.ok.injEq, Prod.mk.injEq] at h
      refine ⟨?_, ?_, ?_⟩
      · rw [← h.1]
        exact lookupA_removeA_self _ (token_id, bidder)
      · rw [← h.1]
        dsimp only
        rw [htid]
        exact lookupA_removeA_self s.asks token_id
      · rw [← h.2]
        simp [finalize_sale, transfer_token, transfer_nft, Response.new, Response.add_event]

def c8Bid : Bid := ⟨"t", "b", ⟨"coin", 100⟩, 100⟩

def c8State : State := ⟨baseParams, [], [(("t", "b"), c8Bid)], [], []⟩

def c8Out : State × Response :=
  (⟨baseParams, [], [], [], []⟩,
   ⟨[.send "fc" ⟨"coin", 2⟩ "payout-market", .send "s" ⟨"coin", 98⟩ "payout-seller",
     .transferNft "t" "b"],
    [⟨"accept-bid", [("token_id", "t"), ("bidder", "b"), ("price", "100coin"),
      ("expires_at", "100")]⟩]⟩)

/-- Witness for C8: the owner accepts a live 100coin bid with no ask on
the token; the bid is deleted and 2/98 are paid out with the token going
to the bidder. -/
theorem accept_bid_settles_witness :
    lookupA c8Out.1.bids ("t", "b") = none
    ∧ lookupA c8Out.1.asks "t" = none
    ∧ c8Out.2.messages =
        [Action.send "fc" ⟨"coin", 2⟩ "payout-market",
         Action.send "s" ⟨"coin", 98⟩ "payout-seller",
         Action.transferNft "t" "b"] :=
  (accept_bid_settles sellerOwns baseEnv ⟨"s", []⟩ "t" "b" c8State c8Bid
    (by decide) (by decide)).2 c8Out.1 c8Out.2 (by decide)

/-- C9: a successful `AcceptCollectionBid(token, bidder)` pays out exactly
one unit's per-unit price fee-split (remainder to the ask's recipient when
an ask existed, else to the calling sender) and transfers the token to the
bidder; when the stored record had `units = 1` it is deleted, otherwise the
record is stored back under the same bidder key with `units` decremented by
one (its remaining escrow correspondingly reduced by one unit's price). -/
theorem accept_collection_bid_settles (ownerOf : TokenId → Addr) (env : Env)
    (info : MessageInfo) (token_id : TokenId) (bidder : Addr) (s : State)
    (cb : CollectionBid)
    (hcb : lookupA s.collection_bids bidder = some cb)
    (hwf : cb.bidder = bidder)
    (hu : 1 ≤ cb.units) :
    ∀ s1 r, execMsg ownerOf env info (.AcceptCollectionBid token_id bidder) s = .ok (s1, r) →
      r.messages =
        [Action.send s.params.collector_address
           ⟨s.params.denom, feeAmount cb.price.amount s.params⟩ "payout-market",
         Action.send
           (match lookupA s.asks token_id with
            | some ask => Ask.get_recipient ask
            | none => info.sender)
           ⟨s.params.denom, cb.price.amount - feeAmount cb.price.amount s.params⟩
           "payout-seller",
         Action.transferNft token_id cb.bidder]
      ∧ (cb.units = 1 → lookupA s1.collection_bids bidder = none)
      ∧ (cb.units ≠ 1 →
          lookupA s1.collection_bids bidder = some { cb with units := cb.units - 1 }) := by
  intro s1 r h
  unfold execMsg execute_accept_collection_bid at h
  rcases bind_ok h with ⟨u1, h1, h⟩
  rcases bind_ok h with ⟨cb1, h2, h⟩
  have hcb1 : cb1 = cb := by
    have := loadE_ok h2
    rw [hcb] at this
    exact (Option.some.injEq _ _ ▸ this).symm
  rw [hcb1] at h
  rcases bind_ok h with ⟨u2, h3, h⟩
  rcases bind_ok h with ⟨u3, h4, h⟩
  dsimp only at h
  cases hu1 : cb.units with
  | zero => omega
  | succ n =>
    cases n with
    | zero =>
      rw [hu1] at h
      cases hma : lookupA s.asks token_id with
      | none =>
        rw [hma] at h
        simp only [Except.ok.injEq, Prod.mk.injEq] at h
        refine ⟨?_, fun _ => ?_, fun hne => absurd (by omega : 0 + 1 = 1) hne⟩
        · rw [← h.2]
          simp [finalize_sale, transfer_token, transfer_nft, Response.new, Response.add_event]
        · rw [← h.1]
          exact lookupA_removeA_self s.collection_bids bidder
      | some ask0 =>
        rw [hma] at h
        simp only [Except.ok.injEq, Prod.mk.injEq] at h
        refine ⟨?_, fun _ => ?_, fun hne => absurd (by omega : 0 + 1 = 1) hne⟩
        · rw [← h.2]
          simp [finalize_sale, transfer_token, transfer_nft, Response.new, Response.add_event]
        · rw [← h.1]
          exact lookupA_removeA_self _ bidder
    | succ m =>
      rw [hu1] at h
      cases hma : lookupA s.asks token_id with
      | none =>
        rw [hma] at h
        simp only [Except.ok.injEq, Prod.mk.injEq] at h
        refine ⟨?_, fun he => absurd he (by omega), fun _ => ?_⟩
        · rw [← h.2]
          simp [finalize_sale, transfer_token, transfer_nft, Response.new, Response.add_event]
        · rw [← h.1]
          dsimp only [store_collection_bid]
          rw [hwf]
          exact lookupA_insertA_self _ bidder _
      | some ask0 =>
        rw [hma] at h
        simp only [Except.ok.injEq, Prod.mk.injEq] at h
        refine ⟨?_, fun he => absurd he (by omega), fun _ => ?_⟩
        · rw [← h.2]
          simp [finalize_sale, transfer_token, transfer_nft, Response.new, Response.add_event]
        · rw [← h.1]
          dsimp only [store_collection_bid]
          rw [hwf]
          exact lookupA_insertA_self _ bidder _

def c9Cb : CollectionBid := ⟨3, ⟨"coin", 50⟩, "b", 100⟩

def c9State : State := ⟨baseParams, [], [], [("b", c9Cb)], []⟩

def c9Out : State × Response :=
  (⟨baseParams, [], [], [("b", ⟨2, ⟨"coin", 50⟩, "b", 100⟩)], []⟩,
   ⟨[.send "fc" ⟨"coin", 1⟩ "payout-market", .send "s" ⟨"coin", 49⟩ "payout-seller",
     .transferNft "t" "b"],
    [⟨"accept-collection-bid", [("bidder", "b"), ("price", "50coin"), ("units", "2"),
      ("expires_at", "100")]⟩]⟩)

/-- Witness for C9: accepting one unit of a 3-unit 50coin collection bid
pays out 1/49, moves the token, and stores the record back with 2 units. -/
theorem accept_collection_bid_settles_witness :
    c9Out.2.messages =
      [Action.send "fc" ⟨"coin", 1⟩ "payout-market",
       Action.send "s" ⟨"coin", 49⟩ "payout-seller",
       Action.transferNft "t" "b"]
    ∧ (c9Cb.units = 1 → lookupA c9Out.1.collection_bids "b" = none)
    ∧ (c9Cb.units ≠ 1 →
        lookupA c9Out.1.collection_bids "b" = some ⟨2, ⟨"coin", 50⟩, "b", 100⟩) :=
  accept_collection_bid_settles sellerOwns baseEnv ⟨"s", []⟩ "t" "b" c9State c9Cb
    (by decide) (by decide) (by decide) c9Out.1 c9Out.2 (by decide)

/-- C10: closing a live, non-expired auction with `accept_highest_bid =
true` when no non-expired bid on the token exists succeeds as a non-sale:
no reserve check can trigger, the only queued transfer returns the token to
the seller (no funds move), and the close event carries `is_sale = false`. -/
theorem close_auction_no_bid_returns_token (ownerOf : TokenId → Addr) (env : Env)
    (info : MessageInfo) (token_id : TokenId) (s : State) (a : Auction)
    (ha : lookupA s.auctions token_id = some a)
    (hseller : info.sender = a.seller)
    (hfunds : info.funds = [])
    (hexp : a.is_expired env.block.time = false)
    (hnobid : ∀ kv ∈ s.bids, kv.1.1 = token_id → kv.2.expires_at ≤ env.block.time) :
    execMsg ownerOf env info (.CloseAuction token_id true) s =
      .ok (s, ⟨[Action.transferNft a.token_id info.sender],
        [⟨"close-auction", [("collection", s.params.cw721_address),
          ("token_id", a.token_id), ("is_sale", "false")]⟩]⟩) := by
  have hq : query_highest_live_bid s token_id env.block.time = none := query_none hnobid
  simp [execMsg, execute_close_auction, bind, Except.bind, nonpayable, only_seller,
    failIf, hfunds, hseller, hexp, hq, ha, loadE, transfer_nft, Response.new,
    Response.add_event]
  rfl

def c10Auction : Auction := ⟨"t", "s", ⟨"coin", 100⟩, none, none, 100⟩

def c10State : State := ⟨baseParams, [], [], [], [("t", c10Auction)]⟩

/-- Witness for C10: closing an auction with no bids at all returns the
token to the seller and reports a non-sale. -/
theorem close_auction_no_bid_returns_token_witness :
    execMsg sellerOwns baseEnv ⟨"s", []⟩ (.CloseAuction "t" true) c10State =
      .ok (c10State, ⟨[Action.transferNft "t" "s"],
        [⟨"close-auction", [("collection", "nft"), ("token_id", "t"),
          ("is_sale", "false")]⟩]⟩) :=
  close_auction_no_bid_returns_token sellerOwns baseEnv ⟨"s", []⟩ "t" c10State c10Auction
    (by decide) (by decide) (by decide) (by decide) (by decide)

end Marketplace
